import Mathlib

/-!
Verification development for the Whimmy channel plugin
(WebSocket bridge between an agent runtime and the Whimmy backend).

The TypeScript source is shallowly embedded: pure functions become Lean
functions, the stateful parts (waiter tables, connection registry, token
tracking, hash caches) become explicit state passing or small step
relations, and fallible code returns Except.  JS string primitives
(toLowerCase, trimEnd, slice, split) are modelled at the character-list
level, matching their per-character semantics.
-/

namespace Whimmy

/-! ## JS string primitives -/

/-- Model of JS String.prototype.toLowerCase (per-character lowering). -/
def jsToLowerCase (s : String) : String := String.mk (s.data.map Char.toLower)

/-- Model of JS String.prototype.trimEnd (drop trailing whitespace). -/
def jsTrimEnd (s : String) : String :=
  String.mk ((s.data.reverse.dropWhile Char.isWhitespace).reverse)

/-- Model of JS String.prototype.slice with one argument (drop the first
`start` characters; yields the empty string when `start` exceeds the length). -/
def jsSlice (s : String) (start : Nat) : String := String.mk (s.data.drop start)

/-- Model of JS String.prototype.length (character count). -/
def jsLength (s : String) : Nat := s.data.length

/-! ## Wire envelope and sendEnvelope (src/unnamed/part_001 lines 70-83)

The envelope payload is carried as an already-serialized JSON fragment,
since sendEnvelope treats it opaquely. -/

/-- Wire envelope shape, payload abstracted as its serialized JSON text. -/
structure WSEnvelope where
  type : String
  payload : Option String := none
deriving DecidableEq

/-- Model of JSON.stringify on an envelope. -/
def serializeEnvelope (env : WSEnvelope) : String :=
  "\x7b\"type\":\"" ++ env.type ++ "\"" ++
    (match env.payload with
      | some p => ",\"payload\":" ++ p
      | none => "") ++ "\x7d"

/-- Socket readiness, mirroring the WebSocket readyState constants.
`opened` models WebSocket.OPEN. -/
inductive ReadyState
  | connecting
  | opened
  | closing
  | closed
deriving DecidableEq

/-- Model of the socket as seen by sendEnvelope: its readyState and whether
the underlying ws.send call raises. -/
structure WsSocket where
  readyState : ReadyState
  sendRaises : Bool
deriving DecidableEq

/-- Model of the raw ws.send call: hands the frame to the socket or raises. -/
def wsSendRaw (ws : WsSocket) (data : String) : Except String (List String) :=
  if ws.sendRaises then Except.error "send failed" else Except.ok [data]

/-- Model of sendEnvelope: returns the boolean result together with the list
of frames actually handed to the socket.  The try/catch around ws.send is
the Except match; the readyState guard is the leading if. -/
def sendEnvelope (ws : WsSocket) (env : WSEnvelope) : Bool × List String :=
  if ws.readyState ≠ ReadyState.opened then (false, [])
  else
    match wsSendRaw ws (serializeEnvelope env) with
    | Except.ok frames => (true, frames)
    | Except.error _ => (false, [])

/-! ## Tool approval matching (src/unnamed/part_001 lines 1143-1153) -/

/-- Model of the TOOL_APPROVAL_ALIASES record: exec maps to Bash. -/
def TOOL_APPROVAL_ALIASES (toolName : String) : Option String :=
  if toolName = "exec" then some "Bash" else none

/-- Translation of toolMatchesApprovalList. -/
def toolMatchesApprovalList (toolName : String) (toolList : List String) : Bool :=
  if toolList.contains "*" then true
  else if toolList.contains toolName then true
  else
    match TOOL_APPROVAL_ALIASES toolName with
    | some a => toolList.contains a
    | none => false

/-! ## Connection registry (src/unnamed/part_001 lines 582-754) -/

/-- Record kept in activeConnections: the socket handle and the stop
function are identified by tokens so that handle identity is expressible. -/
structure SockRecord where
  wsId : Nat
  readyState : ReadyState
  stopId : Nat
deriving DecidableEq

/-- Process-wide gateway state: the activeConnections map plus a counter of
sockets ever created (so "opens no second socket" is expressible). -/
structure GatewayState where
  activeConnections : List (String × SockRecord) := []
  socketsCreated : Nat := 0
deriving DecidableEq

/-- Lookup in the activeConnections map. -/
def lookupConn (st : GatewayState) (accountId : String) : Option SockRecord :=
  (st.activeConnections.find? (fun kv => kv.1 == accountId)).map (fun kv => kv.2)

/-- Map.set semantics on the association list. -/
def setConn (st : GatewayState) (accountId : String) (r : SockRecord) :
    List (String × SockRecord) :=
  (accountId, r) :: st.activeConnections.filter (fun kv => kv.1 != accountId)

/-- Slow path of connectWebSocket: open a fresh socket (OPEN once the
awaited open event fired), register it, return it. -/
def openFreshSocket (st : GatewayState) (accountId : String) :
    SockRecord × GatewayState :=
  let r : SockRecord := ⟨st.socketsCreated, ReadyState.opened, st.socketsCreated⟩
  (r, { activeConnections := setConn st accountId r,
        socketsCreated := st.socketsCreated + 1 })

/-- Translation of connectWebSocket lines 592-602 and 751-753: if an
existing record for the account has an OPEN socket, return it unchanged;
otherwise create and register a fresh one. -/
def connectWebSocket (st : GatewayState) (accountId : String) :
    SockRecord × GatewayState :=
  match lookupConn st accountId with
  | some existing =>
    if existing.readyState = ReadyState.opened then (existing, st)
    else openFreshSocket st accountId
  | none => openFreshSocket st accountId

/-- Whether an OPEN record exists for the account (the reuse condition). -/
def hasOpenConn (st : GatewayState) (accountId : String) : Bool :=
  match lookupConn st accountId with
  | some r => r.readyState = ReadyState.opened
  | none => false

/-! ## Correlation waiter tables (src/unnamed/part_001 lines 85-106, 425-439,
476-543, 546-559)

The approval waiter (requestApproval / handleHookApproval) and the question
waiter (askUserQuestion / handleHookAskUserAnswer) share the same
promise-and-timer discipline, differing only in the result type R, so one
parameterized model covers both tables.  The model tracks a single
correlation id: whether it is still in the waiters map, whether its
setTimeout timer is armed, and the state of the returned promise. -/

/-- JS promise state of a waiter of result type R. -/
inductive PromiseState (R : Type)
  | pending
  | resolvedWith (v : R)
  | rejectedWith (msg : String)
deriving DecidableEq

/-- Resolve a promise; resolving an already-settled promise is a no-op
(JS promise semantics). -/
def settleResolve {R : Type} (p : PromiseState R) (v : R) : PromiseState R :=
  match p with
  | PromiseState.pending => PromiseState.resolvedWith v
  | s => s

/-- Reject a promise; rejecting an already-settled promise is a no-op. -/
def settleReject {R : Type} (p : PromiseState R) (msg : String) : PromiseState R :=
  match p with
  | PromiseState.pending => PromiseState.rejectedWith msg
  | s => s

/-- State of one correlation id issued by a waiter table. -/
structure WaiterState (R : Type) where
  inTable : Bool
  timerActive : Bool
  promise : PromiseState R
deriving DecidableEq

/-- State right after requestApproval / askUserQuestion generated the id,
registered the waiter in the map and armed the timeout timer. -/
def registeredWaiter (R : Type) : WaiterState R :=
  ⟨true, true, PromiseState.pending⟩

/-- Events that can reach one correlation id: a matching inbound resolution
(hook.approval / hook.ask_user_answer) or the timeout timer firing. -/
inductive WaiterEvent (R : Type)
  | resolveMsg (v : R)
  | timerFire

/-- Observable actions of one step: the promise being settled one way or
the other, or the logged no-waiter no-op for a late resolution. -/
inductive WaiterAction (R : Type)
  | settledResolve (v : R)
  | settledReject (msg : String)
  | loggedNoWaiter
deriving DecidableEq

/-- Step of the waiter table for one correlation id.  The resolveMsg case
follows handleHookApproval (lines 431-438) and handleHookAskUserAnswer
(lines 552-558): if the id is still in the map, delete the entry and run
the stored waiter, which clears the timer and resolves the promise;
otherwise only log.  The timerFire case follows the setTimeout callback in
requestApproval (lines 486-489) and askUserQuestion (lines 525-528): the
timer can only fire while it is armed (resolution clears it); it deletes
the map entry and rejects the promise with the timeout message. -/
def waiterStep {R : Type} (timeoutMsg : String) (st : WaiterState R) :
    WaiterEvent R → WaiterState R × Option (WaiterAction R)
  | WaiterEvent.resolveMsg v =>
    if st.inTable then
      (⟨false, false, settleResolve st.promise v⟩,
        some (WaiterAction.settledResolve v))
    else
      (st, some WaiterAction.loggedNoWaiter)
  | WaiterEvent.timerFire =>
    if st.timerActive then
      (⟨false, false, settleReject st.promise timeoutMsg⟩,
        some (WaiterAction.settledReject timeoutMsg))
    else (st, none)

/-- Run a sequence of events against one correlation id, collecting the
observable actions. -/
def runWaiter {R : Type} (timeoutMsg : String) (st : WaiterState R) :
    List (WaiterEvent R) → WaiterState R × List (WaiterAction R)
  | [] => (st, [])
  | e :: es =>
    let s1 := waiterStep timeoutMsg st e
    let s2 := runWaiter timeoutMsg s1.1 es
    (s2.1, s1.2.toList ++ s2.2)

/-- Whether an action settles the promise. -/
def isSettleAction {R : Type} : WaiterAction R → Bool
  | WaiterAction.settledResolve _ => true
  | WaiterAction.settledReject _ => true
  | WaiterAction.loggedNoWaiter => false

/-- Number of promise-settling actions in a trace. -/
def settleCount {R : Type} (acts : List (WaiterAction R)) : Nat :=
  acts.countP isSettleAction

/-! ## Session key derivation and recovery (src/unnamed/part_001 lines
196-198 and 1177-1180) -/

/-- Model of JS String.prototype.split for the single-character colon
separator, at the character level (split of the empty string is one empty
segment, like in JS). -/
def splitColonChars : List Char → List (List Char)
  | [] => [[]]
  | c :: cs =>
    if c = ':' then [] :: splitColonChars cs
    else
      match splitColonChars cs with
      | [] => [[c]]
      | h :: t => (c :: h) :: t

/-- Split a string on colons, as sessionKey.split does. -/
def splitColon (s : String) : List String :=
  (splitColonChars s.data).map String.mk

/-- Model of Array.prototype.join with the colon separator. -/
def joinColon : List String → String
  | [] => ""
  | [s] => s
  | s :: rest => s ++ ":" ++ joinColon rest

/-- Translation of the session-key derivation at line 197: the string
agent colon agentId colon direct colon backendSessionKey, lower-cased. -/
def deriveSessionKey (agentId backendSessionKey : String) : String :=
  jsToLowerCase ("agent:" ++ agentId ++ ":direct:" ++ backendSessionKey)

/-- Translation of the recovery at lines 1179-1180: split on colon; with at
least 4 segments, rejoin everything from index 3; otherwise return the
input unchanged. -/
def recoverBackendSessionKey (sessionKey : String) : String :=
  let parts := splitColon sessionKey
  if parts.length ≥ 4 then joinColon (parts.drop 3) else sessionKey

/-! ## Agent configuration and config sync (src/src/sync.ts) -/

/-- Approval policy carried in an agent config. -/
structure ApprovalPolicy where
  enabled : Bool
  mode : Option String := none
  tools : Option (List String) := none
  timeoutMs : Option Nat := none
deriving DecidableEq

/-- AskUserQuestion interception policy carried in an agent config. -/
structure AuqPolicy where
  enabled : Option Bool := none
  timeoutMs : Option Nat := none
deriving DecidableEq

/-- Inbound agent configuration (the fields the sync hash covers); skill
entry configurations are carried as opaque serialized values. -/
structure AgentConfig where
  model : String
  systemPrompt : Option String := none
  skills : Option (List String) := none
  skillEntries : Option (List (String × String)) := none
  approvals : Option ApprovalPolicy := none
  askUserQuestion : Option AuqPolicy := none
deriving DecidableEq

/-- Fingerprint computed by computeHash in sync.ts (the sha256 digest of
the JSON of six fields).  The digest is modelled as the tuple of the
serialized fields themselves, which preserves exactly the equalities the
cache comparison depends on (hash collisions aside). -/
structure ConfigHash where
  model : String
  systemPrompt : String
  skills : Option (List String)
  skillEntries : Option (List (String × String))
  approvals : Option ApprovalPolicy
  askUserQuestion : Option AuqPolicy
deriving DecidableEq

/-- Translation of computeHash (sync.ts lines 12-22). -/
def computeHash (c : AgentConfig) : ConfigHash :=
  ⟨c.model, c.systemPrompt.getD "", c.skills, c.skillEntries,
   c.approvals, c.askUserQuestion⟩

/-- Agent entry in the openclaw config agents list (the fields the sync
writes); execAskOff models tools.exec.ask being set to off. -/
structure AgentEntry where
  id : String
  model : Option String := none
  skills : Option (List String) := none
  workspace : Option String := none
  agentDir : Option String := none
  execAskOff : Bool := false
deriving DecidableEq

/-- Loaded openclaw configuration (the parts the sync touches). -/
structure OcConfig where
  agentsList : List AgentEntry := []
  defaultWorkspace : Option String := none
deriving DecidableEq

/-- File-system and config-store writes performed by ensureWhimmyAgent. -/
inductive SyncEffect
  | mkdirEff (path : String)
  | writeFileEff (path : String) (content : String)
  | writeConfigFileEff
deriving DecidableEq

/-- In-memory hash cache of the sync module (sync.ts line 10). -/
structure SyncState where
  hashCache : List (String × ConfigHash) := []
deriving DecidableEq

/-- hashCache.get. -/
def lookupHash (st : SyncState) (agentId : String) : Option ConfigHash :=
  (st.hashCache.find? (fun kv => kv.1 == agentId)).map (fun kv => kv.2)

/-- hashCache.set. -/
def setHash (st : SyncState) (agentId : String) (h : ConfigHash) : SyncState :=
  ⟨(agentId, h) :: st.hashCache.filter (fun kv => kv.1 != agentId)⟩

/-- Path join. -/
def joinPath (a b : String) : String := a ++ "/" ++ b

/-- Append a fresh entry for the agent when none exists (sync.ts 56-60). -/
def upsertAgentEntry (l : List AgentEntry) (agentId : String) : List AgentEntry :=
  if l.any (fun e => e.id == agentId) then l else l ++ [{ id := agentId }]

/-- Mutate the entry with the given id in place. -/
def updateAgentEntry (l : List AgentEntry) (agentId : String)
    (f : AgentEntry → AgentEntry) : List AgentEntry :=
  l.map (fun e => if e.id == agentId then f e else e)

/-- Translation of ensureWhimmyAgent (sync.ts lines 29-132).  The fast path
(lines 37-41) returns the freshly loaded config, leaves the cache alone and
performs no write when the cached hash matches; the slow path updates the
agent entry (model, skills, exec ask-off when approvals are enabled,
workspace paths), creates the agent directory, writes SOUL.md and
BOOTSTRAP.md, persists the config file and updates the cache.  loadConfig
is supplied by the caller as the collaborator's current result; the
skill-entry merge mutates parts of the config this model does not track. -/
def ensureWhimmyAgent (st : SyncState) (agentId : String)
    (agentConfig : AgentConfig) (loaded : OcConfig) :
    OcConfig × SyncState × List SyncEffect :=
  let hash := computeHash agentConfig
  if lookupHash st agentId = some hash then
    (loaded, st, [])
  else
    let agents0 := upsertAgentEntry loaded.agentsList agentId
    let workspace := loaded.defaultWorkspace.getD "~/.openclaw/workspace"
    let agentDir := joinPath (joinPath workspace "agents") agentId
    let agents1 := updateAgentEntry agents0 agentId (fun e =>
      { e with
        model := some agentConfig.model
        skills := match agentConfig.skills with
          | some sk => some sk
          | none => e.skills
        execAskOff := match agentConfig.approvals with
          | some ap => if ap.enabled then true else e.execAskOff
          | none => e.execAskOff
        workspace := some agentDir
        agentDir := some agentDir })
    ({ loaded with agentsList := agents1 },
     setHash st agentId hash,
     [SyncEffect.mkdirEff agentDir,
      SyncEffect.writeFileEff (joinPath agentDir "SOUL.md")
        (agentConfig.systemPrompt.getD ""),
      SyncEffect.writeFileEff (joinPath agentDir "BOOTSTRAP.md") "",
      SyncEffect.writeConfigFileEff])

/-! ## Agent request pipeline (src/unnamed/part_001 lines 178-423, 643-712) -/

/-- ChatChunkPayload fields used by chat.chunk and chat.done events. -/
structure ChatChunkPayload where
  sessionKey : String
  agentId : String
  content : String
  done : Bool
  tokenCount : Option Int := none
deriving DecidableEq

/-- Outbound events emitted during one agent turn (the memory-sync files
are name-content pairs). -/
inductive OutEvent
  | chatPresence (sessionKey agentId status : String)
  | chatChunk (p : ChatChunkPayload)
  | chatDone (p : ChatChunkPayload)
  | agentMemorySync (sessionKey agentId : String) (files : List (String × String))
deriving DecidableEq

/-- Inbound hook.agent request (the fields the pipeline uses). -/
structure HookAgentRequest where
  agentId : String
  sessionKey : String
  message : String
  agentConfig : AgentConfig
deriving DecidableEq

/-- Translation of the onPartialReply callback (lines 325-342): trim the
cumulative text, skip when it is empty or unchanged, otherwise take only
the suffix past the previously sent text, updating the tracker before the
empty-delta check exactly as the source does, and emit the delta as a
chat.chunk payload with done false. -/
def onReplyDelta (req : HookAgentRequest) (lastText : String)
    (payloadText : String) : Option ChatChunkPayload × String :=
  let text := jsTrimEnd payloadText
  if text = "" ∨ text = lastText then (none, lastText)
  else
    let newContent := jsSlice text (jsLength lastText)
    if newContent = "" then (none, text)
    else (some ⟨req.sessionKey, req.agentId, newContent, false, none⟩, text)

/-- Fold onReplyDelta over the cumulative texts handed to the callback
during one turn, collecting the emitted chunk payloads. -/
def runReplyDeltas (req : HookAgentRequest) (lastText : String) :
    List String → List ChatChunkPayload × String
  | [] => ([], lastText)
  | t :: ts =>
    let s1 := onReplyDelta req lastText t
    let s2 := runReplyDeltas req s1.2 ts
    (s1.1.toList ++ s2.1, s2.2)

/-- Session-store entry holding token usage (lines 383-390). -/
structure StoreEntry where
  inputTokens : Option Nat := none
  outputTokens : Option Nat := none
  totalTokens : Option Nat := none
deriving DecidableEq

/-- Cumulative total of a store entry (line 394): totalTokens when present,
else inputTokens plus outputTokens with absent fields read as 0. -/
def cumulativeOf (entry : StoreEntry) : Nat :=
  entry.totalTokens.getD (entry.inputTokens.getD 0 + entry.outputTokens.getD 0)

/-- Translation of the token-delta computation (lines 393-398): delta of
the cumulative total against the tracked previous value (0 when absent);
the tracker is updated only when the cumulative total is positive, and
tokenCount is set only when the delta is strictly positive. -/
def tokenDeltaStep (entry : StoreEntry) (prevOpt : Option Nat) :
    Option Int × Option Nat :=
  let cumulative : Nat := cumulativeOf entry
  let prev : Nat := prevOpt.getD 0
  let delta : Int := (cumulative : Int) - (prev : Int)
  let newPrev := if cumulative > 0 then some cumulative else prevOpt
  ((if delta > 0 then some delta else none), newPrev)

/-- Run consecutive turns of one session through the token tracker. -/
def runTokenTurns (prevOpt : Option Nat) :
    List StoreEntry → List (Option Int) × Option Nat
  | [] => ([], prevOpt)
  | e :: es =>
    let s1 := tokenDeltaStep e prevOpt
    let s2 := runTokenTurns s1.2 es
    (s1.1 :: s2.1, s2.2)

/-- Spec-side reading of the token-count claim, for comparison: each turn
emits the delta of the cumulative total against the previous turn's
cumulative total (0 before the first turn), omitted when not strictly
positive. -/
def specTokenDeltas : Nat → List Nat → List (Option Int)
  | _, [] => []
  | prev, c :: cs =>
    (if (c : Int) - (prev : Int) > 0 then some ((c : Int) - (prev : Int)) else none)
      :: specTokenDeltas c cs

/-- Outcomes of the external collaborators during one turn, supplied as an
oracle: whether the config-sync file I/O throws, the cumulative texts the
dispatch engine hands to the partial-reply callback, whether the engine
itself rejects afterwards, the changed memory files (none when nothing
changed or collection failed), and the parsed session-store entry (none
when the store is missing or unreadable). -/
structure TurnOracle where
  syncThrows : Option String := none
  cumulativeTexts : List String := []
  dispatchError : Option String := none
  changedMemoryFiles : Option (List (String × String)) := none
  storeEntry : Option StoreEntry := none
deriving DecidableEq

/-- Translation of handleHookAgent (lines 178-423).  The handler can throw
before any event is emitted (the ensureWhimmyAgent file I/O, modelled by
the syncThrows oracle); past that point every failure is contained: the
dispatch try/catch (lines 280-347) only logs o.dispatchError, the memory
sync try/catch (lines 349-368) only logs, and the store-read try/catch
(lines 382-411) leaves tokenCount unset, so the turn always ends with the
idle presence and the terminal chat.done of lines 371-422.  Returns the
emitted events, the sync state, the sync effects and the token tracker. -/
def handleHookAgent (o : TurnOracle) (req : HookAgentRequest) (st : SyncState)
    (loaded : OcConfig) (prevTokens : Option Nat) :
    Except String (List OutEvent × SyncState × List SyncEffect × Option Nat) :=
  match o.syncThrows with
  | some e => Except.error e
  | none =>
    let sync := ensureWhimmyAgent st req.agentId req.agentConfig loaded
    let chunks := (runReplyDeltas req "" o.cumulativeTexts).1
    let memEvents := match o.changedMemoryFiles with
      | some files => [OutEvent.agentMemorySync req.sessionKey req.agentId files]
      | none => []
    let tok := match o.storeEntry with
      | some entry => tokenDeltaStep entry prevTokens
      | none => (none, prevTokens)
    Except.ok
      ([OutEvent.chatPresence req.sessionKey req.agentId "typing"]
        ++ chunks.map OutEvent.chatChunk
        ++ memEvents
        ++ [OutEvent.chatPresence req.sessionKey req.agentId "idle",
            OutEvent.chatDone ⟨req.sessionKey, req.agentId, "", true, tok.1⟩],
       sync.2.1, sync.2.2, tok.2)

/-- Translation of the hook.agent arm of the inbound dispatcher (lines
655-668): an exception escaping the handler is caught and converted into a
chat.done event whose content is the error message, with done true. -/
def dispatchHookAgent (o : TurnOracle) (req : HookAgentRequest) (st : SyncState)
    (loaded : OcConfig) (prevTokens : Option Nat) :
    List OutEvent × SyncState × List SyncEffect × Option Nat :=
  match handleHookAgent o req st loaded prevTokens with
  | Except.ok r => r
  | Except.error e =>
    ([OutEvent.chatDone ⟨req.sessionKey, req.agentId, "Error: " ++ e, true, none⟩],
     st, [], prevTokens)

/-! ## AskUserQuestion interception (src/unnamed/part_001 lines 516-543 and
1161-1206) -/

/-- Outcome of one AskUserQuestion round as decided by the waiter table:
the answers map (question text to selected label) or a timeout. -/
inductive AskOutcome
  | answered (answers : List (String × String))
  | timedOut
deriving DecidableEq

/-- Translation of askUserQuestion (lines 516-543): its promise resolves
with the answers when the waiter is resolved first and rejects with the
timeout error naming the question id when the timer fires first (the
mutual exclusion of the two outcomes is proved on the waiter model). -/
def askUserQuestionResult (questionId : String) (timeoutMs : Nat)
    (outcome : AskOutcome) : Except String (List (String × String)) :=
  match outcome with
  | AskOutcome.answered a => Except.ok a
  | AskOutcome.timedOut =>
    Except.error ("AskUserQuestion timed out after " ++ toString timeoutMs
      ++ "ms (questionId=" ++ questionId ++ ")")

/-- Parameters of an intercepted AskUserQuestion tool call: the question
texts and the injected answers map. -/
structure ToolCallParams where
  questions : List String
  answers : Option (List (String × String)) := none
deriving DecidableEq

/-- Hook return value for before_tool_call. -/
inductive HookResult
  | passthrough
  | modifiedParams (p : ToolCallParams)
  | blocked (blockReason : String)
deriving DecidableEq

/-- Translation of the AskUserQuestion interception in registerWhimmyHooks
(lines 1167-1206): fall through when the policy is explicitly disabled or
the question list is empty; otherwise await the question round with the
policy timeout (default 120000 ms); on success return the params with the
answers injected, on failure block with a reason prefixed by the
user-did-not-respond text and carrying the error message. -/
def interceptAskUserQuestion (auqConfig : Option AuqPolicy) (questionId : String)
    (params : ToolCallParams) (outcome : AskOutcome) : HookResult :=
  if auqConfig.bind (fun c => c.enabled) = some false then HookResult.passthrough
  else if params.questions.length = 0 then HookResult.passthrough
  else
    let timeoutMs := (auqConfig.bind (fun c => c.timeoutMs)).getD 120000
    match askUserQuestionResult questionId timeoutMs outcome with
    | Except.ok answers =>
      HookResult.modifiedParams { params with answers := some answers }
    | Except.error msg =>
      HookResult.blocked ("User did not respond: " ++ msg)

end Whimmy

namespace Whimmy

/-! ## Theorems for outbound send, tool matching, connection reuse -/

/-- C10: sendEnvelope is total and best-effort: it returns false (rather
than raising) when the socket is not OPEN or the underlying send raises,
and returns true exactly when it handed the serialized envelope to an OPEN
socket; on failure nothing is handed to the socket. -/
theorem sendEnvelope_total_best_effort (ws : WsSocket) (env : WSEnvelope) :
    ((sendEnvelope ws env).1 = true ↔
      ws.readyState = ReadyState.opened ∧ ws.sendRaises = false)
    ∧ ((sendEnvelope ws env).1 = true →
        (sendEnvelope ws env).2 = [serializeEnvelope env])
    ∧ ((sendEnvelope ws env).1 = false → (sendEnvelope ws env).2 = []) := by
  unfold sendEnvelope wsSendRaw
  rcases ws with ⟨rs, raises⟩
  cases rs <;> cases raises <;> simp

/-- C10 witness: a concrete OPEN socket with a working send returns true and
hands over exactly the serialized envelope. -/
theorem sendEnvelope_total_best_effort_witness :
    (sendEnvelope ⟨ReadyState.opened, false⟩ ⟨"health", none⟩).1 = true ∧
    (sendEnvelope ⟨ReadyState.opened, false⟩ ⟨"health", none⟩).2
      = [serializeEnvelope ⟨"health", none⟩] := by
  refine ⟨by decide, ?_⟩
  exact (sendEnvelope_total_best_effort ⟨ReadyState.opened, false⟩
    ⟨"health", none⟩).2.1 (by decide)

/-- C8: a tool name matches the approval tool list exactly when the list
contains the wildcard, the exact name, or the tool's known alias; the list
with just the wildcard matches every tool, and the list containing Bash
matches the internal exec tool via the alias map. -/
theorem toolMatchesApprovalList_spec (toolName : String) (toolList : List String) :
    (toolMatchesApprovalList toolName toolList = true ↔
      "*" ∈ toolList ∨ toolName ∈ toolList ∨
        ∃ a, TOOL_APPROVAL_ALIASES toolName = some a ∧ a ∈ toolList)
    ∧ toolMatchesApprovalList toolName ["*"] = true
    ∧ toolMatchesApprovalList "exec" ["Bash"] = true := by
  refine ⟨?_, by simp [toolMatchesApprovalList], by decide⟩
  unfold toolMatchesApprovalList
  by_cases hw : toolList.contains "*" = true
  · have hw' : "*" ∈ toolList := List.elem_iff.mp hw
    simp [hw, hw']
  · by_cases hn : toolList.contains toolName = true
    · have hn' : toolName ∈ toolList := List.elem_iff.mp hn
      simp [hw, hn, hn']
    · have hw' : "*" ∉ toolList := fun h => hw (List.elem_iff.mpr h)
      have hn' : toolName ∉ toolList := fun h => hn (List.elem_iff.mpr h)
      cases h : TOOL_APPROVAL_ALIASES toolName with
      | none => simp [hw, hn, h, hw', hn']
      | some a =>
        rw [if_neg hw, if_neg hn]
        constructor
        · intro hm
          exact Or.inr (Or.inr ⟨a, rfl, List.elem_iff.mp hm⟩)
        · rintro (hc | hc | ⟨b, hb, hbl⟩)
          · exact absurd hc hw'
          · exact absurd hc hn'
          · cases Option.some.inj hb
            exact List.elem_iff.mpr hbl

/-- C6: connecting twice in a row for the same account is idempotent: the
second call returns the identical record (socket handle and stop function)
and the identical state, so no second socket is opened; and the first call
creates a fresh socket exactly when no OPEN record exists for the account. -/
theorem connectWebSocket_reuse_idempotent (st : GatewayState) (a : String) :
    (connectWebSocket (connectWebSocket st a).2 a).1 = (connectWebSocket st a).1
    ∧ (connectWebSocket (connectWebSocket st a).2 a).2 = (connectWebSocket st a).2
    ∧ (connectWebSocket st a).2.socketsCreated =
        (if hasOpenConn st a then st.socketsCreated else st.socketsCreated + 1) := by
  have hfresh : ∀ s : GatewayState,
      connectWebSocket (openFreshSocket s a).2 a = openFreshSocket s a := by
    intro s
    unfold connectWebSocket lookupConn openFreshSocket setConn
    simp
  cases h : lookupConn st a with
  | none =>
    have h1 : connectWebSocket st a = openFreshSocket st a := by
      unfold connectWebSocket; rw [h]
    have h2 : hasOpenConn st a = false := by
      unfold hasOpenConn; rw [h]
    simp only [h1, hfresh st, h2, if_false, Bool.false_eq_true]
    simp [openFreshSocket]
  | some r =>
    by_cases hr : r.readyState = ReadyState.opened
    · have h1 : connectWebSocket st a = (r, st) := by
        unfold connectWebSocket; rw [h]; simp [hr]
      have h2 : hasOpenConn st a = true := by
        unfold hasOpenConn; rw [h]; simp [hr]
      simp [h1, h2]
    · have h1 : connectWebSocket st a = openFreshSocket st a := by
        unfold connectWebSocket; rw [h]; simp [hr]
      have h2 : hasOpenConn st a = false := by
        unfold hasOpenConn; rw [h]; simp [hr]
      simp only [h1, hfresh st, h2, if_false, Bool.false_eq_true]
      simp [openFreshSocket]

/-! ## Waiter table theorems -/

/-- Helper: once the table entry is gone and the timer is disarmed, the
state is frozen: further events change nothing and settle nothing. -/
lemma runWaiter_frozen {R : Type} (tm : String) (st : WaiterState R)
    (h1 : st.inTable = false) (h2 : st.timerActive = false)
    (es : List (WaiterEvent R)) :
    (runWaiter tm st es).1 = st ∧ settleCount (runWaiter tm st es).2 = 0 := by
  induction es with
  | nil => simp [runWaiter, settleCount]
  | cons e es ih =>
    cases e with
    | resolveMsg v =>
      simpa [runWaiter, waiterStep, h1, settleCount, isSettleAction] using ih
    | timerFire =>
      simpa [runWaiter, waiterStep, h2, settleCount] using ih

/-- Helper: runWaiter distributes over list append. -/
lemma runWaiter_append {R : Type} (tm : String) (st : WaiterState R)
    (es1 es2 : List (WaiterEvent R)) :
    runWaiter tm st (es1 ++ es2)
      = ((runWaiter tm (runWaiter tm st es1).1 es2).1,
         (runWaiter tm st es1).2 ++ (runWaiter tm (runWaiter tm st es1).1 es2).2) := by
  induction es1 generalizing st with
  | nil => simp [runWaiter]
  | cons e es ih => simp [runWaiter, ih]

/-- C1: for every correlation id issued by a waiter table (approval waiter
or question waiter, the model being parametric in the result type R), at
most one of resolve and timeout ever settles the promise: a resolve that
arrives first removes the entry, cancels the timer and resolves the
promise exactly once; a timeout that fires first removes the entry and
rejects exactly once; and a resolve arriving after the id was settled and
removed is a logged no-op that leaves the rejected promise untouched and
throws nothing. -/
theorem waiter_settles_at_most_once {R : Type} (tm : String)
    (es : List (WaiterEvent R)) (v : R) :
    settleCount (runWaiter tm (registeredWaiter R) es).2 ≤ 1
    ∧ (runWaiter tm (registeredWaiter R) (WaiterEvent.resolveMsg v :: es)).1
        = ⟨false, false, PromiseState.resolvedWith v⟩
    ∧ (runWaiter tm (registeredWaiter R) (WaiterEvent.timerFire :: es)).1
        = ⟨false, false, PromiseState.rejectedWith tm⟩
    ∧ (runWaiter tm (registeredWaiter R)
          ((WaiterEvent.timerFire :: es) ++ [WaiterEvent.resolveMsg v])).1
        = ⟨false, false, PromiseState.rejectedWith tm⟩
    ∧ (runWaiter tm (registeredWaiter R)
          ((WaiterEvent.timerFire :: es) ++ [WaiterEvent.resolveMsg v])).2.getLast?
        = some WaiterAction.loggedNoWaiter := by
  have hres : waiterStep tm (registeredWaiter R) (WaiterEvent.resolveMsg v)
      = (⟨false, false, PromiseState.resolvedWith v⟩,
          some (WaiterAction.settledResolve v)) := by
    simp [waiterStep, registeredWaiter, settleResolve]
  have hrej : waiterStep tm (registeredWaiter R) (WaiterEvent.timerFire)
      = (⟨false, false, PromiseState.rejectedWith tm⟩,
          some (WaiterAction.settledReject tm)) := by
    simp [waiterStep, registeredWaiter, settleReject]
  have hfr := fun (st : WaiterState R) h1 h2 =>
    runWaiter_frozen tm st h1 h2 es
  refine ⟨?_, ?_, ?_, ?_, ?_⟩
  · cases es with
    | nil => simp [runWaiter, settleCount]
    | cons e es' =>
      cases e with
      | resolveMsg w =>
        have hstep : runWaiter tm (registeredWaiter R) (WaiterEvent.resolveMsg w :: es')
            = ((runWaiter tm
                  (⟨false, false, PromiseState.resolvedWith w⟩ : WaiterState R) es').1,
               WaiterAction.settledResolve w ::
                 (runWaiter tm
                  (⟨false, false, PromiseState.resolvedWith w⟩ : WaiterState R) es').2) := by
          simp [runWaiter, waiterStep, registeredWaiter, settleResolve]
        have hfz := runWaiter_frozen tm
          (⟨false, false, PromiseState.resolvedWith w⟩ : WaiterState R) rfl rfl es'
        rw [hstep]
        unfold settleCount at hfz ⊢
        rw [List.countP_cons, hfz.2]
        simp [isSettleAction]
      | timerFire =>
        have hstep : runWaiter tm (registeredWaiter R) (WaiterEvent.timerFire :: es')
            = ((runWaiter tm
                  (⟨false, false, PromiseState.rejectedWith tm⟩ : WaiterState R) es').1,
               WaiterAction.settledReject tm ::
                 (runWaiter tm
                  (⟨false, false, PromiseState.rejectedWith tm⟩ : WaiterState R) es').2) := by
          simp [runWaiter, waiterStep, registeredWaiter, settleReject]
        have hfz := runWaiter_frozen tm
          (⟨false, false, PromiseState.rejectedWith tm⟩ : WaiterState R) rfl rfl es'
        rw [hstep]
        unfold settleCount at hfz ⊢
        rw [List.countP_cons, hfz.2]
        simp [isSettleAction]
  · have hfz := runWaiter_frozen tm
      (⟨false, false, PromiseState.resolvedWith v⟩ : WaiterState R) rfl rfl es
    simp [runWaiter, hres, hfz.1]
  · have hfz := runWaiter_frozen tm
      (⟨false, false, PromiseState.rejectedWith tm⟩ : WaiterState R) rfl rfl es
    simp [runWaiter, hrej, hfz.1]
  · have hfz := runWaiter_frozen tm
      (⟨false, false, PromiseState.rejectedWith tm⟩ : WaiterState R) rfl rfl
      (es ++ [WaiterEvent.resolveMsg v])
    simp [runWaiter, hrej, hfz.1]
  · have hfz := runWaiter_frozen tm
      (⟨false, false, PromiseState.rejectedWith tm⟩ : WaiterState R) rfl rfl es
    have happ := runWaiter_append tm
      (⟨false, false, PromiseState.rejectedWith tm⟩ : WaiterState R)
      es [WaiterEvent.resolveMsg v]
    have hone : runWaiter tm
        (⟨false, false, PromiseState.rejectedWith tm⟩ : WaiterState R)
        [WaiterEvent.resolveMsg v]
        = (⟨false, false, PromiseState.rejectedWith tm⟩,
           [WaiterAction.loggedNoWaiter]) := by
      simp [runWaiter, waiterStep]
    have h2 : (runWaiter tm (registeredWaiter R)
          ((WaiterEvent.timerFire :: es) ++ [WaiterEvent.resolveMsg v])).2
        = WaiterAction.settledReject tm ::
            ((runWaiter tm
              (⟨false, false, PromiseState.rejectedWith tm⟩ : WaiterState R) es).2
              ++ [WaiterAction.loggedNoWaiter]) := by
      simp only [List.cons_append]
      simp only [runWaiter, hrej]
      rw [happ, hfz.1, hone]
      simp
    rw [h2, ← List.cons_append]
    exact List.getLast?_concat _

/-! ## Session key theorems -/

/-- Helper: splitting never yields an empty list of segments. -/
lemma splitColonChars_ne_nil (l : List Char) : splitColonChars l ≠ [] := by
  cases l with
  | nil => simp [splitColonChars]
  | cons c cs =>
    unfold splitColonChars
    by_cases h : c = ':'
    · simp [h]
    · simp only [h, if_false]
      cases splitColonChars cs <;> simp

/-- Helper: a colon-free character list splits into a single segment. -/
lemma splitColonChars_no_colon (l : List Char) (h : (':' : Char) ∉ l) :
    splitColonChars l = [l] := by
  induction l with
  | nil => rfl
  | cons c cs ih =>
    simp only [List.mem_cons, not_or] at h
    have hne : ¬(c = ':') := fun hc => h.1 hc.symm
    simp only [splitColonChars, hne, if_false]
    rw [ih h.2]

/-- Helper: splitting a colon-free chunk followed by a colon peels off the
chunk as one segment. -/
lemma splitColonChars_append_colon (xs ys : List Char) (h : (':' : Char) ∉ xs) :
    splitColonChars (xs ++ ':' :: ys) = xs :: splitColonChars ys := by
  induction xs with
  | nil => simp [splitColonChars]
  | cons c cs ih =>
    simp only [List.mem_cons, not_or] at h
    have hne : ¬(c = ':') := fun hc => h.1 hc.symm
    simp only [List.cons_append, splitColonChars, hne, if_false, List.append_eq]
    rw [ih h.2]

/-- Helper: lower-casing only ever produces a colon from a colon. -/
lemma toLower_eq_colon {c : Char} (h : Char.toLower c = ':') : c = ':' := by
  simp only [Char.toLower] at h
  split at h
  · rename_i hc
    exfalso
    have hv : (c.toNat + 32).isValidChar := by
      unfold Nat.isValidChar
      left
      omega
    have ht : (Char.ofNat (c.toNat + 32)).toNat = c.toNat + 32 := by
      unfold Char.ofNat
      rw [dif_pos hv]
      rfl
    rw [h] at ht
    have h58 : (':' : Char).toNat = 58 := by decide
    omega
  · exact h

/-- C5 counterexample: the backend session key SESS-123 contains no colon,
yet recovery of the derived session key returns the lower-cased sess-123,
not the original key, because derivation lower-cases the whole string. -/
theorem recover_derive_uppercase_counterexample :
    ((':' : Char) ∉ "SESS-123".data)
    ∧ recoverBackendSessionKey (deriveSessionKey "agentA" "SESS-123") = "sess-123"
    ∧ "sess-123" ≠ "SESS-123" := by
  decide

/-- C5 amended: for every agent id containing no colon and every backend
session key containing no colon and unchanged by lower-casing, recovering
the backend session key (split on colon, rejoin segments from index 3)
from the derived session key (agent colon agentId colon direct colon key,
lower-cased) returns the original backend session key. -/
theorem recover_derive_leftInverse (agentId backendKey : String)
    (ha : (':' : Char) ∉ agentId.data)
    (hk : (':' : Char) ∉ backendKey.data)
    (hlow : ∀ c ∈ backendKey.data, Char.toLower c = c) :
    recoverBackendSessionKey (deriveSessionKey agentId backendKey) = backendKey := by
  have hmapk : backendKey.data.map Char.toLower = backendKey.data := by
    rw [List.map_congr_left hlow]
    exact List.map_id _
  have hdata : (deriveSessionKey agentId backendKey).data
      = "agent".data ++ ':' :: (agentId.data.map Char.toLower
          ++ ':' :: ("direct".data ++ ':' :: backendKey.data)) := by
    simp [deriveSessionKey, jsToLowerCase, String.data_append, List.map_append, hmapk]
  have hacolon : (':' : Char) ∉ agentId.data.map Char.toLower := by
    intro hmem
    rcases List.mem_map.mp hmem with ⟨x, hx, hxl⟩
    exact ha (toLower_eq_colon hxl ▸ hx)
  have hsplit : splitColon (deriveSessionKey agentId backendKey)
      = ["agent", String.mk (agentId.data.map Char.toLower), "direct", backendKey] := by
    unfold splitColon
    rw [hdata, splitColonChars_append_colon _ _ (by decide),
        splitColonChars_append_colon _ _ hacolon,
        splitColonChars_append_colon _ _ (by decide),
        splitColonChars_no_colon _ hk]
    simp only [List.map_cons, List.map_nil]
  unfold recoverBackendSessionKey
  rw [hsplit]
  simp [joinColon]

/-- C5 amended witness: the concrete example of the claim, with a colon-free
lower-case backend session key, recovers exactly. -/
theorem recover_derive_leftInverse_witness :
    ((':' : Char) ∉ "agentA".data)
    ∧ ((':' : Char) ∉ "sess-123".data)
    ∧ (∀ c ∈ "sess-123".data, Char.toLower c = c)
    ∧ recoverBackendSessionKey (deriveSessionKey "agentA" "sess-123") = "sess-123" := by
  exact ⟨by decide, by decide, by decide,
    recover_derive_leftInverse "agentA" "sess-123" (by decide) (by decide) (by decide)⟩

/-! ## Agent pipeline theorems -/

/-- Helper: a string whose character list is empty is the empty string. -/
lemma string_eq_empty_of_data_nil (s : String) (h : s.data = []) : s = "" := by
  cases s
  simp only at h
  rw [h]

/-- Helper: the last element of a list of the handler's shape is the final
element of the trailing pair. -/
lemma getLast?_chain {α : Type} (l1 l2 l3 : List α) (x y : α) :
    (l1 ++ l2 ++ l3 ++ [x, y]).getLast? = some y := by
  have h : l1 ++ l2 ++ l3 ++ [x, y] = (l1 ++ l2 ++ l3 ++ [x]) ++ [y] := by simp
  rw [h]
  exact List.getLast?_concat _

/-- Helper: on the throwing path, the dispatcher emits exactly the error
chat.done. -/
lemma dispatch_err_events (o : TurnOracle) (req : HookAgentRequest)
    (st : SyncState) (loaded : OcConfig) (prevTokens : Option Nat) (e : String)
    (h : o.syncThrows = some e) :
    (dispatchHookAgent o req st loaded prevTokens).1
      = [OutEvent.chatDone ⟨req.sessionKey, req.agentId, "Error: " ++ e, true, none⟩] := by
  unfold dispatchHookAgent handleHookAgent
  rw [h]

/-- Helper: on the non-throwing path, the dispatcher's event list ends with
the handler's terminal chat.done. -/
lemma dispatch_ok_last (o : TurnOracle) (req : HookAgentRequest)
    (st : SyncState) (loaded : OcConfig) (prevTokens : Option Nat)
    (h : o.syncThrows = none) :
    ((dispatchHookAgent o req st loaded prevTokens).1).getLast?
      = some (OutEvent.chatDone ⟨req.sessionKey, req.agentId, "", true,
          (match o.storeEntry with
            | some entry => tokenDeltaStep entry prevTokens
            | none => (none, prevTokens)).1⟩) := by
  unfold dispatchHookAgent handleHookAgent
  rw [h]
  exact getLast?_chain _ _ _ _ _

/-- C2: every inbound hook.agent message ends in a terminal chat.done with
done true: for an arbitrary oracle the last emitted event is a chat.done
for the request's session and agent; when the handler throws, the
dispatcher's catch emits exactly one chat.done whose content is the error
message; and on the non-throwing path (dispatch-engine errors included,
since the oracle's dispatchError is arbitrary) the turn still ends with
the normal empty-content chat.done. -/
theorem hookAgent_always_emits_terminal_done (o : TurnOracle)
    (req : HookAgentRequest) (st : SyncState) (loaded : OcConfig)
    (prevTokens : Option Nat) (e : String) :
    (∃ p, ((dispatchHookAgent o req st loaded prevTokens).1).getLast?
        = some (OutEvent.chatDone p) ∧ p.done = true
        ∧ p.sessionKey = req.sessionKey ∧ p.agentId = req.agentId)
    ∧ (dispatchHookAgent { o with syncThrows := some e } req st loaded prevTokens).1
        = [OutEvent.chatDone ⟨req.sessionKey, req.agentId, "Error: " ++ e, true, none⟩]
    ∧ (∃ p, ((dispatchHookAgent { o with syncThrows := none } req st loaded
          prevTokens).1).getLast? = some (OutEvent.chatDone p)
        ∧ p.done = true ∧ p.content = "") := by
  refine ⟨?_, dispatch_err_events _ req st loaded prevTokens e rfl, ?_⟩
  · cases ho : o.syncThrows with
    | some e2 =>
      rw [dispatch_err_events o req st loaded prevTokens e2 ho]
      exact ⟨_, rfl, rfl, rfl, rfl⟩
    | none =>
      exact ⟨_, dispatch_ok_last o req st loaded prevTokens ho, rfl, rfl, rfl⟩
  · exact ⟨_, dispatch_ok_last _ req st loaded prevTokens rfl, rfl, rfl⟩

/-- C9: when the inbound agent configuration hashes to the cached hash of
the previous sync for that agent id, the config sync performs no write at
all (no workspace file, no config file) and returns the loaded
configuration unchanged, and the turn still ends in a terminal chat.done. -/
theorem config_sync_fastpath_no_writes (o : TurnOracle) (req : HookAgentRequest)
    (st : SyncState) (loaded : OcConfig) (prevTokens : Option Nat)
    (hcache : lookupHash st req.agentId = some (computeHash req.agentConfig))
    (hs : o.syncThrows = none) :
    ensureWhimmyAgent st req.agentId req.agentConfig loaded = (loaded, st, [])
    ∧ (dispatchHookAgent o req st loaded prevTokens).2.2.1 = []
    ∧ ∃ p, ((dispatchHookAgent o req st loaded prevTokens).1).getLast?
        = some (OutEvent.chatDone p) ∧ p.done = true := by
  have hfast : ensureWhimmyAgent st req.agentId req.agentConfig loaded
      = (loaded, st, []) := by
    unfold ensureWhimmyAgent
    rw [if_pos hcache]
  refine ⟨hfast, ?_, ⟨_, dispatch_ok_last o req st loaded prevTokens hs, rfl⟩⟩
  unfold dispatchHookAgent handleHookAgent
  rw [hs]
  simp [hfast]

/-- C9 witness: a concrete cache hit performs no effect and ends in a
chat.done. -/
theorem config_sync_fastpath_no_writes_witness :
    (lookupHash ⟨[("a1", computeHash ⟨"gpt-4o", none, none, none, none, none⟩)]⟩ "a1"
        = some (computeHash ⟨"gpt-4o", none, none, none, none, none⟩))
    ∧ ensureWhimmyAgent ⟨[("a1", computeHash ⟨"gpt-4o", none, none, none, none, none⟩)]⟩
        "a1" ⟨"gpt-4o", none, none, none, none, none⟩ ⟨[], none⟩
        = (⟨[], none⟩, ⟨[("a1", computeHash ⟨"gpt-4o", none, none, none, none, none⟩)]⟩, [])
    ∧ (dispatchHookAgent ⟨none, [], none, none, none⟩
        ⟨"a1", "s1", "hi", ⟨"gpt-4o", none, none, none, none, none⟩⟩
        ⟨[("a1", computeHash ⟨"gpt-4o", none, none, none, none, none⟩)]⟩
        ⟨[], none⟩ none).2.2.1 = [] := by
  refine ⟨by decide, ?_, ?_⟩
  · exact (config_sync_fastpath_no_writes ⟨none, [], none, none, none⟩
      ⟨"a1", "s1", "hi", ⟨"gpt-4o", none, none, none, none, none⟩⟩
      ⟨[("a1", computeHash ⟨"gpt-4o", none, none, none, none, none⟩)]⟩
      ⟨[], none⟩ none (by decide) rfl).1
  · exact (config_sync_fastpath_no_writes ⟨none, [], none, none, none⟩
      ⟨"a1", "s1", "hi", ⟨"gpt-4o", none, none, none, none, none⟩⟩
      ⟨[("a1", computeHash ⟨"gpt-4o", none, none, none, none, none⟩)]⟩
      ⟨[], none⟩ none (by decide) rfl).2.1

/-- Helper: building a string from its own character list is the identity. -/
lemma string_mk_data (s : String) : String.mk s.data = s := rfl

/-- Helper: the concrete three-step cumulative example of the partial-reply
callback, evaluated. -/
lemma runReplyDeltas_example (req : HookAgentRequest) :
    runReplyDeltas req "" ["Hello", "Hello, world", "Hello, world!"]
      = ([⟨req.sessionKey, req.agentId, "Hello", false, none⟩,
          ⟨req.sessionKey, req.agentId, ", world", false, none⟩,
          ⟨req.sessionKey, req.agentId, "!", false, none⟩], "Hello, world!") := rfl

/-- C3: partial-reply deltas: the cumulative texts Hello, Hello-comma-world,
Hello-comma-world-bang produce exactly the chunk contents Hello, comma-world
and bang, every emitted chunk has done false; a callback whose trimmed
cumulative text equals the already-sent text emits nothing; every emitted
chunk is the nonempty slice of the trimmed text past the already-sent
length; and when the trimmed cumulative text extends the already-sent text
by a nonempty suffix, exactly that suffix is emitted. -/
theorem chunk_delta_emission (req : HookAgentRequest) (lastText t : String) :
    ((runReplyDeltas req "" ["Hello", "Hello, world", "Hello, world!"]).1.map
        (fun p => p.content) = ["Hello", ", world", "!"]
      ∧ ∀ p ∈ (runReplyDeltas req "" ["Hello", "Hello, world", "Hello, world!"]).1,
          p.done = false)
    ∧ onReplyDelta req (jsTrimEnd t) t = (none, jsTrimEnd t)
    ∧ (∀ p newLast, onReplyDelta req lastText t = (some p, newLast) →
        p.content ≠ "" ∧ p.done = false ∧ newLast = jsTrimEnd t
          ∧ p.content = jsSlice (jsTrimEnd t) (jsLength lastText))
    ∧ (∀ u, jsTrimEnd t = lastText ++ u → u ≠ "" →
        onReplyDelta req lastText t
          = (some ⟨req.sessionKey, req.agentId, u, false, none⟩, lastText ++ u)) := by
  refine ⟨⟨?_, ?_⟩, ?_, ?_, ?_⟩
  · rw [runReplyDeltas_example req]
    rfl
  · rw [runReplyDeltas_example req]
    intro p hp
    simp only [List.mem_cons, List.not_mem_nil, or_false] at hp
    rcases hp with h | h | h <;> rw [h]
  · simp [onReplyDelta]
  · intro p newLast h
    simp only [onReplyDelta] at h
    split at h
    · simp at h
    · rename_i h1
      split at h
      · simp at h
      · rename_i h2
        injection h with ha hb
        injection ha with ha'
        subst ha'
        subst hb
        exact ⟨h2, rfl, rfl, rfl⟩
  · intro u hu hne
    have hune : u.data ≠ [] := fun hd => hne (string_eq_empty_of_data_nil u hd)
    have htne2 : ¬(jsTrimEnd t = lastText) := by
      rw [hu]
      intro hcontra
      apply hune
      have hd := congrArg String.data hcontra
      rw [String.data_append] at hd
      have : lastText.data ++ u.data = lastText.data ++ [] := by
        rw [hd, List.append_nil]
      exact List.append_cancel_left this
    have htne1 : ¬(jsTrimEnd t = "") := by
      rw [hu]
      intro hcontra
      apply hune
      have hd := congrArg String.data hcontra
      rw [String.data_append] at hd
      exact (List.append_eq_nil.mp hd).2
    have hslice : jsSlice (jsTrimEnd t) (jsLength lastText) = u := by
      rw [hu]
      unfold jsSlice jsLength
      rw [String.data_append, List.drop_left]
    simp only [onReplyDelta]
    rw [if_neg (by
      intro hor
      rcases hor with h | h
      · exact htne1 h
      · exact htne2 h)]
    rw [hslice, if_neg hne, hu]

/-- C3 witness: the second cumulative text of the example emits exactly the
unsent suffix. -/
theorem chunk_delta_emission_witness :
    (jsTrimEnd "Hello, world" = "Hello" ++ ", world")
    ∧ (", world" : String) ≠ ""
    ∧ onReplyDelta ⟨"a1", "s1", "hi", ⟨"m", none, none, none, none, none⟩⟩
        "Hello" "Hello, world"
      = (some ⟨"s1", "a1", ", world", false, none⟩, "Hello" ++ ", world") := by
  refine ⟨by decide, by decide, ?_⟩
  exact (chunk_delta_emission ⟨"a1", "s1", "hi", ⟨"m", none, none, none, none, none⟩⟩
    "Hello" "Hello, world").2.2.2 ", world" (by decide) (by decide)

/-- Helper: on turns whose cumulative totals are all positive, the tracker
follows the previous turn's cumulative total, so the emitted values are
exactly the spec-side per-turn deltas. -/
lemma runTokenTurns_spec (prevOpt : Option Nat) (es : List StoreEntry)
    (hpos : ∀ e ∈ es, 0 < cumulativeOf e) :
    (runTokenTurns prevOpt es).1
      = specTokenDeltas (prevOpt.getD 0) (es.map cumulativeOf) := by
  induction es generalizing prevOpt with
  | nil => rfl
  | cons e es ih =>
    have hpe : 0 < cumulativeOf e := hpos e (by simp)
    have hrest : ∀ x ∈ es, 0 < cumulativeOf x := fun x hx => hpos x (by simp [hx])
    have hnew : (tokenDeltaStep e prevOpt).2 = some (cumulativeOf e) := by
      unfold tokenDeltaStep
      simp [hpe]
    simp only [runTokenTurns, specTokenDeltas, List.map_cons]
    rw [hnew, ih (some (cumulativeOf e)) hrest]
    rfl

/-- C4: the tokenCount of the chat.done is the delta of the cumulative
token total against the tracked previous value (0 when no prior turn
exists): the cumulative totals 100, 100, 250 emit 100, omitted, 150; an
emitted value is always strictly positive; the field is omitted exactly
when the delta is not strictly positive; and over any run of turns with
positive cumulative totals the emitted values are exactly the per-turn
deltas against the previous turn's total. -/
theorem tokenCount_delta_spec (entry : StoreEntry) (prevOpt : Option Nat)
    (es : List StoreEntry) (hpos : ∀ e ∈ es, 0 < cumulativeOf e) :
    ((runTokenTurns none
        [⟨none, none, some 100⟩, ⟨none, none, some 100⟩, ⟨none, none, some 250⟩]).1
      = [some 100, none, some 150])
    ∧ (∀ d, (tokenDeltaStep entry prevOpt).1 = some d → 0 < d)
    ∧ ((tokenDeltaStep entry prevOpt).1 = none ↔
        (cumulativeOf entry : Int) - ((prevOpt.getD 0 : Nat) : Int) ≤ 0)
    ∧ (runTokenTurns prevOpt es).1
        = specTokenDeltas (prevOpt.getD 0) (es.map cumulativeOf) := by
  refine ⟨by decide, ?_, ?_, runTokenTurns_spec prevOpt es hpos⟩
  · intro d hd
    simp only [tokenDeltaStep] at hd
    split at hd
    · rename_i hgt
      injection hd with hd'
      omega
    · exact Option.noConfusion hd
  · simp only [tokenDeltaStep]
    split
    · rename_i hgt
      constructor
      · intro hc
        exact Option.noConfusion hc
      · intro hle
        omega
    · rename_i hgt
      constructor
      · intro _
        omega
      · intro _
        rfl

/-- C4 witness: the concrete example of the claim, with positive cumulative
totals discharged concretely. -/
theorem tokenCount_delta_spec_witness :
    (∀ e ∈ ([⟨none, none, some 100⟩, ⟨none, none, some 100⟩,
        ⟨none, none, some 250⟩] : List StoreEntry), 0 < cumulativeOf e)
    ∧ (runTokenTurns none
        [⟨none, none, some 100⟩, ⟨none, none, some 100⟩, ⟨none, none, some 250⟩]).1
      = [some 100, none, some 150] := by
  refine ⟨by decide, ?_⟩
  exact (tokenCount_delta_spec ⟨some 3, some 4, none⟩ none
    [⟨none, none, some 100⟩, ⟨none, none, some 100⟩, ⟨none, none, some 250⟩]
    (by decide)).1

/-- C7: an intercepted AskUserQuestion with no answer within the configured
timeout rejects with a timeout error that names the question id, and the
tool call is blocked with a reason that starts with the user-did-not-respond
text and carries that error; a successful answer lets the tool proceed with
the answers map injected into its parameters. -/
theorem askUserQuestion_timeout_blocks (auq : AuqPolicy) (qid : String)
    (params : ToolCallParams) (answers : List (String × String))
    (hen : auq.enabled ≠ some false) (hq : params.questions.length ≠ 0) :
    (∃ msg, askUserQuestionResult qid ((auq.timeoutMs).getD 120000) AskOutcome.timedOut
        = Except.error msg
      ∧ (∃ s t, msg = s ++ (qid ++ t))
      ∧ interceptAskUserQuestion (some auq) qid params AskOutcome.timedOut
          = HookResult.blocked ("User did not respond: " ++ msg))
    ∧ interceptAskUserQuestion (some auq) qid params (AskOutcome.answered answers)
        = HookResult.modifiedParams { params with answers := some answers } := by
  have hcond : ¬((some auq).bind (fun c => c.enabled) = some false) := by
    simpa using hen
  constructor
  · refine ⟨"AskUserQuestion timed out after "
        ++ toString ((auq.timeoutMs).getD 120000) ++ "ms (questionId=" ++ qid ++ ")",
      rfl, ⟨"AskUserQuestion timed out after "
        ++ toString ((auq.timeoutMs).getD 120000) ++ "ms (questionId=", ")",
      by rw [String.append_assoc]⟩, ?_⟩
    simp only [interceptAskUserQuestion]
    rw [if_neg hcond, if_neg hq]
    rfl
  · simp only [interceptAskUserQuestion]
    rw [if_neg hcond, if_neg hq]
    rfl

/-- C7 witness: a concrete answered round injects the answers map. -/
theorem askUserQuestion_timeout_blocks_witness :
    ((⟨some true, some 50⟩ : AuqPolicy).enabled ≠ some false)
    ∧ ((⟨["Pick one"], none⟩ : ToolCallParams).questions.length ≠ 0)
    ∧ interceptAskUserQuestion (some ⟨some true, some 50⟩) "q1" ⟨["Pick one"], none⟩
        (AskOutcome.answered [("Pick one", "Option A")])
      = HookResult.modifiedParams ⟨["Pick one"], some [("Pick one", "Option A")]⟩ := by
  refine ⟨by decide, by decide, ?_⟩
  exact (askUserQuestion_timeout_blocks ⟨some true, some 50⟩ "q1" ⟨["Pick one"], none⟩
    [("Pick one", "Option A")] (by decide) (by decide)).2

end Whimmy
